import Mathlib

/- Verification of the Tank Gunner world simulation: a shallow embedding of
   world.py (with the constants of settings.py, and the attribute surface that
   main.py reads).  The source's float arithmetic is embedded as exact rational
   arithmetic; decimal literals of the source are read as the rationals they
   denote.  Where the source takes a floating-point square root (a vector
   norm), the embedding receives that root as an explicit argument and each
   theorem constrains it by its defining properties: nonnegative, and its
   square equals the squared norm. -/

/-- 3D vector (world.py `vec3`): X = right, Y = up, Z = forward. -/
@[ext] structure Vec3 where
  x : ℚ
  y : ℚ
  z : ℚ
deriving DecidableEq, Repr

instance : Add Vec3 := ⟨fun a b => ⟨a.x + b.x, a.y + b.y, a.z + b.z⟩⟩

instance : Sub Vec3 := ⟨fun a b => ⟨a.x - b.x, a.y - b.y, a.z - b.z⟩⟩

instance : SMul ℚ Vec3 := ⟨fun c v => ⟨c * v.x, c * v.y, c * v.z⟩⟩

@[simp] theorem Vec3.add_x (a b : Vec3) : (a + b).x = a.x + b.x := rfl

@[simp] theorem Vec3.add_y (a b : Vec3) : (a + b).y = a.y + b.y := rfl

@[simp] theorem Vec3.add_z (a b : Vec3) : (a + b).z = a.z + b.z := rfl

@[simp] theorem Vec3.sub_x (a b : Vec3) : (a - b).x = a.x - b.x := rfl

@[simp] theorem Vec3.sub_y (a b : Vec3) : (a - b).y = a.y - b.y := rfl

@[simp] theorem Vec3.sub_z (a b : Vec3) : (a - b).z = a.z - b.z := rfl

@[simp] theorem Vec3.smul_x (c : ℚ) (v : Vec3) : (c • v).x = c * v.x := rfl

@[simp] theorem Vec3.smul_y (c : ℚ) (v : Vec3) : (c • v).y = c * v.y := rfl

@[simp] theorem Vec3.smul_z (c : ℚ) (v : Vec3) : (c • v).z = c * v.z := rfl

/-- Dot product (numpy `np.dot` restricted to length-3 vectors). -/
def Vec3.dot (a b : Vec3) : ℚ := a.x * b.x + a.y * b.y + a.z * b.z

/-- Cross product (numpy `np.cross` on length-3 vectors). -/
def Vec3.cross (a b : Vec3) : Vec3 :=
  ⟨a.y * b.z - a.z * b.y, a.z * b.x - a.x * b.z, a.x * b.y - a.y * b.x⟩

/-- Squared Euclidean norm; `np.linalg.norm v` is its square root. -/
def Vec3.normSq (a : Vec3) : ℚ := a.x * a.x + a.y * a.y + a.z * a.z

/-- world.py `normalize`, with the norm `n` of `v` passed explicitly
    (theorems require `0 ≤ n` and `n * n = v.normSq`): returns `v / n` when
    `n > 1e-12`, otherwise returns `v` unchanged. -/
def normalizeWith (v : Vec3) (n : ℚ) : Vec3 :=
  if n > 1 / 1000000000000 then (1 / n) • v else v

-- ── Constants of settings.py (exact rationals of the decimal literals) ──

def TRAVERSE_SPEED_DEG : ℚ := 3 / 2

def TRAVERSE_SPEED_FAST_DEG : ℚ := 24

def TRAVERSE_RAMP_TIME : ℚ := 1 / 2

def ELEVATION_SPEED_DEG : ℚ := 4

def RELOAD_TIME : ℚ := 5

def MIN_ELEVATION_DEG : ℚ := -4

def MAX_ELEVATION_DEG : ℚ := 20

def INITIAL_ELEVATION_DEG : ℚ := 3 / 2

def INITIAL_TRAVERSE_DEG : ℚ := 0

def PLAYER_EYE_HEIGHT : ℚ := 11 / 5

def SHELL_MUZZLE_VELOCITY : ℚ := 750

def GRAVITY : ℚ := 981 / 100

def DRAG_K : ℚ := 9 / 50000

def SIM_DT : ℚ := 1 / 500

def SHELL_MAX_TIME : ℚ := 10

def TANK_LENGTH : ℚ := 13 / 2

def TANK_WIDTH : ℚ := 16 / 5

def TANK_HEIGHT : ℚ := 12 / 5

def SPAWN_RANGE_MIN : ℚ := 500

def SPAWN_RANGE_MAX : ℚ := 1500

def SPAWN_LATERAL_MAX : ℚ := 200

def TRACER_TRAIL_LENGTH : Nat := 8

def TRACER_SAMPLE_INTERVAL : ℚ := 3 / 200

def SPOTTER_DISPLAY_TIME : ℚ := 4

def SPOTTER_ROUND_TO : ℤ := 50

def SPOTTER_MIN_CORRECTION : ℚ := 10

/-- The IEEE-754 double value of Python's math.pi, as an exact rational. -/
def piQ : ℚ := 884279719003555 / 281474976710656

/-- Python math.radians: degrees times pi over 180. -/
def radians (x : ℚ) : ℚ := x * piQ / 180

/-- world.py `PlayerGun` state: the fields are exactly the instance
    attributes the class assigns (in `__init__`, `update` and `fire`); the
    source's `_traverse_ramp` is written `traverse_ramp` here. -/
structure PlayerGun where
  eye : Vec3
  elevation : ℚ
  traverse : ℚ
  reload_timer : ℚ
  ready : Bool
  traverse_ramp : ℚ
deriving DecidableEq, Repr

/-- world.py `PlayerGun.__init__`. -/
def PlayerGun.init : PlayerGun :=
  { eye := ⟨0, PLAYER_EYE_HEIGHT, 0⟩
    elevation := radians INITIAL_ELEVATION_DEG
    traverse := radians INITIAL_TRAVERSE_DEG
    reload_timer := 0
    ready := true
    traverse_ramp := 0 }

/-- The readable member surface of a PlayerGun object: every instance
    attribute assigned anywhere in class PlayerGun (world.py lines 64-137)
    together with its methods.  A Python read of any name outside this list
    on a PlayerGun raises AttributeError. -/
def playerGunMembers : List String :=
  ["eye", "elevation", "traverse", "reload_timer", "ready", "_traverse_ramp",
   "update", "fire", "get_view"]

/-- C1 is refuted by the code as written: the per-frame audio-gating read
    `world.gun.is_traversing` (main.py line 56) names no member of PlayerGun,
    so on every reachable PlayerGun state — the initial one included — the
    read raises AttributeError instead of yielding a boolean. -/
theorem gun_is_traversing_not_exposed :
    "is_traversing" ∉ playerGunMembers := by
  simp [playerGunMembers]

/-- world.py `EnemyTank.__init__`: an axis-aligned box sitting on the ground
    plane, centered at (x, TANK_HEIGHT/2, z), alive and not destroyed, with
    the fixed half-extents of settings.py. -/
structure EnemyTank where
  center : Vec3
  alive : Bool
  destroyed : Bool
  hx : ℚ
  hy : ℚ
  hz : ℚ
deriving DecidableEq, Repr

def mkEnemyTank (x z : ℚ) : EnemyTank :=
  { center := ⟨x, TANK_HEIGHT / 2, z⟩
    alive := true
    destroyed := false
    hx := TANK_WIDTH / 2
    hy := TANK_HEIGHT / 2
    hz := TANK_LENGTH / 2 }

/-- world.py `World.spawn_tank` with the two draws of the injected random
    source made explicit: `z` drawn from uniform(SPAWN_RANGE_MIN,
    SPAWN_RANGE_MAX) and `x` from uniform(-SPAWN_LATERAL_MAX,
    SPAWN_LATERAL_MAX); appends one new tank. -/
def spawn_tank (tanks : List EnemyTank) (z x : ℚ) : List EnemyTank :=
  tanks ++ [mkEnemyTank x z]

/-- Tank-lifecycle phase closing world.py `World.update` (lines 481-485): if
    every tank is dead, clear the list and spawn one tank from the given
    draws; otherwise leave the tanks untouched.  The earlier shell phase of
    `update` skips dead tanks and can only clear an alive flag (on a hit),
    never set one, so for a world whose tanks are all dead this phase is the
    entire effect of `update` on the tank collection. -/
def respawnPhase (tanks : List EnemyTank) (z x : ℚ) : List EnemyTank :=
  if tanks.all (fun t => !t.alive) then spawn_tank [] z x else tanks

/-- A destroyed tank, as the hit branch of `World.update` leaves one. -/
def destroyedTank : EnemyTank :=
  { mkEnemyTank 0 1000 with alive := false, destroyed := true }

/-- C2 as stated fails on the code: updating a dead-tank world with the
    in-range draws z = 1499, x = 199 spawns the single tank at straight-line
    distance from the gun eye (0, 2.2, 0) strictly greater than
    SPAWN_RANGE_MAX = 1500: the squared distance is 199² + 1 + 1499² =
    2286603 > 1500² = 2250000. -/
theorem respawn_distance_exceeds_max :
    SPAWN_RANGE_MIN ≤ 1499 ∧ (1499 : ℚ) ≤ SPAWN_RANGE_MAX ∧
    -SPAWN_LATERAL_MAX ≤ 199 ∧ (199 : ℚ) ≤ SPAWN_LATERAL_MAX ∧
    respawnPhase [destroyedTank] 1499 199 = [mkEnemyTank 199 1499] ∧
    (mkEnemyTank 199 1499).alive = true ∧
    SPAWN_RANGE_MAX * SPAWN_RANGE_MAX <
      Vec3.normSq ((mkEnemyTank 199 1499).center - PlayerGun.init.eye) := by
  refine ⟨by norm_num [SPAWN_RANGE_MIN], by norm_num [SPAWN_RANGE_MAX],
    by norm_num [SPAWN_LATERAL_MAX], by norm_num [SPAWN_LATERAL_MAX], ?_, ?_, ?_⟩
  · simp [respawnPhase, spawn_tank, destroyedTank]
  · simp [mkEnemyTank]
  · norm_num [mkEnemyTank, PlayerGun.init, Vec3.normSq, SPAWN_RANGE_MAX,
      TANK_HEIGHT, PLAYER_EYE_HEIGHT]

/-- C2 amended: for every world whose tanks are all dead and every draw of
    the injected random source (z in [SPAWN_RANGE_MIN, SPAWN_RANGE_MAX], x in
    [-SPAWN_LATERAL_MAX, SPAWN_LATERAL_MAX]), the next update leaves exactly
    one alive tank, whose forward coordinate is z, whose lateral offset is x,
    and whose straight-line distance from the gun eye is at least
    SPAWN_RANGE_MIN and at most the square root of SPAWN_RANGE_MAX² +
    SPAWN_LATERAL_MAX² + (PLAYER_EYE_HEIGHT - TANK_HEIGHT/2)² = 2290001 —
    which may exceed SPAWN_RANGE_MAX. -/
theorem respawn_spawns_one_tank (tanks : List EnemyTank) (z x : ℚ)
    (hdead : tanks.all (fun t => !t.alive) = true)
    (hz1 : SPAWN_RANGE_MIN ≤ z) (hz2 : z ≤ SPAWN_RANGE_MAX)
    (hx1 : -SPAWN_LATERAL_MAX ≤ x) (hx2 : x ≤ SPAWN_LATERAL_MAX) :
    respawnPhase tanks z x = [mkEnemyTank x z] ∧
    (mkEnemyTank x z).alive = true ∧
    (mkEnemyTank x z).center.z = z ∧
    (mkEnemyTank x z).center.x = x ∧
    SPAWN_RANGE_MIN * SPAWN_RANGE_MIN ≤
      Vec3.normSq ((mkEnemyTank x z).center - PlayerGun.init.eye) ∧
    Vec3.normSq ((mkEnemyTank x z).center - PlayerGun.init.eye) ≤ 2290001 := by
  have hz0 : (0 : ℚ) < z := by
    have : (0 : ℚ) < SPAWN_RANGE_MIN := by norm_num [SPAWN_RANGE_MIN]
    linarith
  refine ⟨by simp [respawnPhase, spawn_tank, hdead], by simp [mkEnemyTank],
    by simp [mkEnemyTank], by simp [mkEnemyTank], ?_, ?_⟩
  · have h : Vec3.normSq ((mkEnemyTank x z).center - PlayerGun.init.eye) =
        x * x + 1 + z * z := by
      norm_num [mkEnemyTank, PlayerGun.init, Vec3.normSq, TANK_HEIGHT,
        PLAYER_EYE_HEIGHT]
    rw [h]
    have : SPAWN_RANGE_MIN * SPAWN_RANGE_MIN ≤ z * z := by
      norm_num [SPAWN_RANGE_MIN] at hz1 ⊢
      nlinarith
    nlinarith [mul_self_nonneg x]
  · have h : Vec3.normSq ((mkEnemyTank x z).center - PlayerGun.init.eye) =
        x * x + 1 + z * z := by
      norm_num [mkEnemyTank, PlayerGun.init, Vec3.normSq, TANK_HEIGHT,
        PLAYER_EYE_HEIGHT]
    rw [h]
    norm_num [SPAWN_RANGE_MIN, SPAWN_RANGE_MAX, SPAWN_LATERAL_MAX] at hz1 hz2 hx1 hx2
    nlinarith

/-- Witness for the amended C2 at the concrete dead-tank world and the draw
    z = 1000, x = 0. -/
theorem respawn_spawns_one_tank_witness :
    respawnPhase [destroyedTank] 1000 0 = [mkEnemyTank 0 1000] ∧
    (mkEnemyTank 0 1000).alive = true := by
  have h := respawn_spawns_one_tank [destroyedTank] 1000 0
    (by simp [destroyedTank]) (by norm_num [SPAWN_RANGE_MIN])
    (by norm_num [SPAWN_RANGE_MAX]) (by norm_num [SPAWN_LATERAL_MAX])
    (by norm_num [SPAWN_LATERAL_MAX])
  exact ⟨h.1, h.2.1⟩


/-- Python 3 `round` on an exact rational: round to nearest, half to even. -/
def pythonRound (q : ℚ) : ℤ :=
  if q - ⌊q⌋ < 1 / 2 then ⌊q⌋
  else if q - ⌊q⌋ > 1 / 2 then ⌊q⌋ + 1
  else if 2 ∣ ⌊q⌋ then ⌊q⌋ else ⌊q⌋ + 1

/-- The quantization applied by world.py `_generate_spotter_callout` to an
    absolute error: `max(SPOTTER_ROUND_TO,
    int(round(a / SPOTTER_ROUND_TO) * SPOTTER_ROUND_TO))`. -/
def spotterRounded (a : ℚ) : ℤ :=
  max SPOTTER_ROUND_TO (pythonRound (a / (SPOTTER_ROUND_TO : ℚ)) * SPOTTER_ROUND_TO)

/-- The range line of a miss callout (world.py lines 366-376). -/
def rangeLine (range_err : ℚ) : String :=
  if |range_err| < SPOTTER_MIN_CORRECTION then "RANGE: ON"
  else if range_err > 0 then
    "LONG " ++ toString (spotterRounded |range_err|) ++ "m — DROP"
  else
    "SHORT " ++ toString (spotterRounded |range_err|) ++ "m — ADD"

/-- The lateral line of a miss callout (world.py lines 378-388). -/
def lateralLine (lateral_err : ℚ) : String :=
  if |lateral_err| < SPOTTER_MIN_CORRECTION then "LINE: ON"
  else if lateral_err > 0 then
    "RIGHT " ++ toString (spotterRounded |lateral_err|) ++ "m"
  else
    "LEFT " ++ toString (spotterRounded |lateral_err|) ++ "m"

theorem pythonRound_near (q : ℚ) : |(pythonRound q : ℚ) - q| ≤ 1 / 2 := by
  have hfl : (⌊q⌋ : ℚ) ≤ q := Int.floor_le q
  have hfu : q < ⌊q⌋ + 1 := Int.lt_floor_add_one q
  rw [pythonRound]
  split_ifs with h1 h2 h3 <;> rw [abs_le] <;> constructor <;> push_cast <;> linarith

/-- A spotter callout record (the dict appended by world.py
    `_generate_spotter_callout`). -/
structure Callout where
  lines : List String
  timer : ℚ
  max_time : ℚ
  is_hit : Bool
deriving DecidableEq, Repr

/-- The loop body of world.py `World._nearest_live_tank`, keeping the best
    (tank, distance) pair.  The float comparison `d < best_dist` of norms is
    taken on exact squared distances, which orders nonnegative values
    identically. -/
def nearestFold (eye : Vec3) (best : Option (EnemyTank × ℚ)) (t : EnemyTank) :
    Option (EnemyTank × ℚ) :=
  if t.alive then
    match best with
    | none => some (t, Vec3.normSq (t.center - eye))
    | some (bt, bd) =>
      if Vec3.normSq (t.center - eye) < bd then
        some (t, Vec3.normSq (t.center - eye))
      else some (bt, bd)
  else best

/-- world.py `World._nearest_live_tank`: the nearest alive tank by
    straight-line distance from the eye (first wins on ties), or `none`. -/
def nearestLiveTank (tanks : List EnemyTank) (eye : Vec3) : Option EnemyTank :=
  (tanks.foldl (nearestFold eye) none).map Prod.fst

/-- world.py `World._generate_spotter_callout`, returning the new callout
    list.  `r` stands for the float `target_range = np.linalg.norm(to_target)`
    (supplied explicitly; theorems constrain it by `0 ≤ r` and `r * r` equal
    to the squared norm of the ground-plane eye→target vector of the nearest
    alive tank). -/
def generateSpotterCallout (tanks : List EnemyTank) (eye : Vec3)
    (callouts : List Callout) (impact_pos : Vec3) (hit : Bool) (r : ℚ) :
    List Callout :=
  if hit then
    callouts ++ [{ lines := ["TARGET HIT!"], timer := SPOTTER_DISPLAY_TIME,
                   max_time := SPOTTER_DISPLAY_TIME, is_hit := true }]
  else
    match nearestLiveTank tanks eye with
    | none => callouts
    | some target =>
      let target_center : Vec3 := ⟨target.center.x, 0, target.center.z⟩
      let impact_ground : Vec3 := ⟨impact_pos.x, 0, impact_pos.z⟩
      let to_target : Vec3 := ⟨target_center.x - eye.x, 0, target_center.z - eye.z⟩
      if r < 1 then callouts
      else
        let forward_dir := (1 / r) • to_target
        let right_dir : Vec3 := ⟨forward_dir.z, 0, -forward_dir.x⟩
        let delta := impact_ground - target_center
        let range_err := delta.dot forward_dir
        let lateral_err := delta.dot right_dir
        callouts ++ [{ lines := [rangeLine range_err, lateralLine lateral_err],
                       timer := SPOTTER_DISPLAY_TIME,
                       max_time := SPOTTER_DISPLAY_TIME, is_hit := false }]

theorem nearestFold_isSome_of_alive (eye : Vec3) (acc : Option (EnemyTank × ℚ))
    (t : EnemyTank) (hal : t.alive = true) :
    (nearestFold eye acc t).isSome = true := by
  rcases acc with _ | ⟨bt, bd⟩ <;> simp [nearestFold, hal] <;> split_ifs <;> simp

theorem nearestFold_isSome_mono (eye : Vec3) (acc : Option (EnemyTank × ℚ))
    (t : EnemyTank) (hacc : acc.isSome = true) :
    (nearestFold eye acc t).isSome = true := by
  rcases acc with _ | ⟨bt, bd⟩
  · simp at hacc
  · by_cases hal : t.alive <;> simp [nearestFold, hal] <;> split_ifs <;> simp

theorem nearestAux_isSome (eye : Vec3) (tanks : List EnemyTank)
    (acc : Option (EnemyTank × ℚ))
    (h : acc.isSome = true ∨ ∃ t ∈ tanks, t.alive = true) :
    (tanks.foldl (nearestFold eye) acc).isSome = true := by
  induction tanks generalizing acc with
  | nil =>
    rcases h with h | ⟨t, ht, _⟩
    · simpa using h
    · simp at ht
  | cons t ts ih =>
    rw [List.foldl_cons]
    apply ih
    rcases h with hacc | ⟨u, hu, hal⟩
    · exact Or.inl (nearestFold_isSome_mono eye acc t hacc)
    · rcases List.mem_cons.mp hu with rfl | hmem
      · exact Or.inl (nearestFold_isSome_of_alive eye acc u hal)
      · exact Or.inr ⟨u, hmem, hal⟩

/-- C3 amended: on a miss, a callout is omitted exactly when either no alive
    target exists or the nearest alive target stands within 1 m ground-plane
    distance of the eye (the guard `target_range < 1.0`); whenever an alive
    target exists, a nearest one is found; and whenever the nearest target's
    ground range is at least 1 m, exactly one callout is appended and it
    carries exactly two lines, one range line and one lateral line. -/
theorem spotter_miss_callout_amended (tanks : List EnemyTank) (eye : Vec3)
    (callouts : List Callout) (impact : Vec3) (r : ℚ) :
    (nearestLiveTank tanks eye = none →
      generateSpotterCallout tanks eye callouts impact false r = callouts) ∧
    ((∃ t ∈ tanks, t.alive = true) →
      (nearestLiveTank tanks eye).isSome = true) ∧
    (∀ tgt : EnemyTank, nearestLiveTank tanks eye = some tgt → 0 ≤ r →
      r * r = Vec3.normSq ⟨tgt.center.x - eye.x, 0, tgt.center.z - eye.z⟩ →
      1 ≤ r →
      ∃ re le, generateSpotterCallout tanks eye callouts impact false r =
        callouts ++ [{ lines := [rangeLine re, lateralLine le],
                       timer := SPOTTER_DISPLAY_TIME,
                       max_time := SPOTTER_DISPLAY_TIME, is_hit := false }]) := by
  refine ⟨?_, ?_, ?_⟩
  · intro hnone
    simp [generateSpotterCallout, hnone]
  · intro hex
    have h := nearestAux_isSome eye tanks none (Or.inr hex)
    rw [nearestLiveTank]
    rcases hfold : List.foldl (nearestFold eye) none tanks with _ | p
    · rw [hfold] at h
      simp at h
    · simp
  · intro tgt hne hr0 hrsq hr1
    simp only [generateSpotterCallout, hne, Bool.false_eq_true, if_false,
      if_neg (not_lt.mpr hr1)]
    exact ⟨_, _, rfl⟩

/-- Witness for the amended C3: one alive tank 500 m ahead, impact 100 m
    beyond it; exactly one callout with exactly two lines is appended. -/
theorem spotter_miss_callout_amended_witness :
    List.map (fun c => c.lines.length)
      (generateSpotterCallout [mkEnemyTank 0 500] PlayerGun.init.eye []
        ⟨0, 0, 600⟩ false 500) = [2] := by
  have hne : nearestLiveTank [mkEnemyTank 0 500] PlayerGun.init.eye =
      some (mkEnemyTank 0 500) := by
    simp [nearestLiveTank, nearestFold, mkEnemyTank]
  obtain ⟨re, le, heq⟩ :=
    (spotter_miss_callout_amended [mkEnemyTank 0 500] PlayerGun.init.eye []
      ⟨0, 0, 600⟩ 500).2.2 (mkEnemyTank 0 500) hne (by norm_num)
      (by norm_num [mkEnemyTank, PlayerGun.init, Vec3.normSq]) (by norm_num)
  rw [heq]
  simp

/-- A tank placed (artificially) half a meter in front of the eye on the
    ground plane: alive, yet below the 1 m spotter guard. -/
def nearTank : EnemyTank := mkEnemyTank 0 (1/2)

/-- C3 as stated fails on the code: in a world holding one ALIVE tank — at
    ground-plane range 1/2 m, inside the `target_range < 1.0` guard — a miss
    resolution appends NO callout, although the claim allows omission only
    when no alive target exists.  (The guard is unreachable in normal play,
    where spawned tanks sit at least 500 m out.) -/
theorem spotter_callout_omitted_with_live_target :
    nearTank.alive = true ∧
    nearestLiveTank [nearTank] PlayerGun.init.eye = some nearTank ∧
    (0 : ℚ) ≤ 1/2 ∧
    (1/2 : ℚ) * (1/2) = Vec3.normSq ⟨nearTank.center.x - PlayerGun.init.eye.x, 0,
      nearTank.center.z - PlayerGun.init.eye.z⟩ ∧
    generateSpotterCallout [nearTank] PlayerGun.init.eye [] ⟨0, 0, 100⟩ false (1/2) =
      [] := by
  have hne : nearestLiveTank [nearTank] PlayerGun.init.eye = some nearTank := by
    simp [nearestLiveTank, nearestFold, nearTank, mkEnemyTank]
  refine ⟨by simp [nearTank, mkEnemyTank], hne, by norm_num, ?_, ?_⟩
  · norm_num [nearTank, mkEnemyTank, PlayerGun.init, Vec3.normSq]
  · simp only [generateSpotterCallout, hne, Bool.false_eq_true, if_false]
    rw [if_pos (by norm_num : (1/2 : ℚ) < 1)]

/-- world.py `get_view_basis`, with the trigonometric values of the two
    angles supplied as arguments: `se`/`ce` stand for sin/cos of the
    elevation, `st`/`ct` for sin/cos of the traverse (theorems constrain each
    pair by sin² + cos² = 1), and `n` stands for the float norm of
    `forward × world_up` taken inside `normalize` (constrained as
    elsewhere). -/
def get_view_basis (se ce st ct n : ℚ) : Vec3 × Vec3 × Vec3 :=
  let forward : Vec3 := ⟨st * ce, se, ct * ce⟩
  let world_up : Vec3 := ⟨0, 1, 0⟩
  let right := normalizeWith (forward.cross world_up) n
  let up := right.cross forward
  (forward, right, up)

/-- C6: for every elevation in [MIN_ELEVATION, MAX_ELEVATION] and every
    traverse in [-π, π] — rendered exactly as: any unit sin/cos pairs with
    cos elevation ≥ 9/10, which holds on the clamped range since
    cos 20° ≈ 0.9397 — the three vectors (forward, right, up) of
    `get_view_basis` are unit length and pairwise orthogonal, in exact real
    arithmetic. -/
theorem view_basis_orthonormal (se ce st ct n : ℚ)
    (he : se * se + ce * ce = 1) (ht : st * st + ct * ct = 1)
    (hce : 9 / 10 ≤ ce) (hn0 : 0 ≤ n)
    (hnsq : n * n = Vec3.normSq ((⟨st * ce, se, ct * ce⟩ : Vec3).cross ⟨0, 1, 0⟩)) :
    Vec3.normSq (get_view_basis se ce st ct n).1 = 1 ∧
    Vec3.normSq (get_view_basis se ce st ct n).2.1 = 1 ∧
    Vec3.normSq (get_view_basis se ce st ct n).2.2 = 1 ∧
    Vec3.dot (get_view_basis se ce st ct n).1 (get_view_basis se ce st ct n).2.1 = 0 ∧
    Vec3.dot (get_view_basis se ce st ct n).1 (get_view_basis se ce st ct n).2.2 = 0 ∧
    Vec3.dot (get_view_basis se ce st ct n).2.1 (get_view_basis se ce st ct n).2.2 = 0 := by
  have hce0 : ce ≠ 0 := by
    intro h
    rw [h] at hce
    norm_num at hce
  have h1 : n * n = ce * ce := by
    rw [hnsq]
    simp only [Vec3.cross, Vec3.normSq]
    linear_combination (ce * ce) * ht
  have hnce : n = ce := by
    have h2 : (n - ce) * (n + ce) = 0 := by linear_combination h1
    rcases mul_eq_zero.mp h2 with h | h
    · linarith
    · linarith
  have hr : normalizeWith ((⟨st * ce, se, ct * ce⟩ : Vec3).cross ⟨0, 1, 0⟩) n =
      ⟨-ct, 0, st⟩ := by
    rw [hnce, normalizeWith, if_pos (show ce > 1 / 1000000000000 by linarith)]
    ext <;> simp only [Vec3.cross, Vec3.smul_x, Vec3.smul_y, Vec3.smul_z] <;>
      field_simp
  have hg : get_view_basis se ce st ct n =
      (⟨st * ce, se, ct * ce⟩, ⟨-ct, 0, st⟩,
        (⟨-ct, 0, st⟩ : Vec3).cross ⟨st * ce, se, ct * ce⟩) := by
    simp only [get_view_basis]
    rw [hr]
  rw [hg]
  simp only [Vec3.cross, Vec3.dot, Vec3.normSq]
  refine ⟨?_, ?_, ?_, ?_, ?_, ?_⟩
  · linear_combination he + (ce * ce) * ht
  · linear_combination ht
  · linear_combination (st * st + ct * ct) * he +
      (ce * ce * (st * st + ct * ct) + 1) * ht
  · ring
  · ring
  · ring

/-- Witness for C6 at elevation 0 (sin 0, cos 1) and a traverse with
    sin 3/5, cos 4/5; the cross-product norm there is exactly 1. -/
theorem view_basis_orthonormal_witness :
    Vec3.normSq (get_view_basis 0 1 (3/5) (4/5) 1).1 = 1 ∧
    Vec3.normSq (get_view_basis 0 1 (3/5) (4/5) 1).2.1 = 1 ∧
    Vec3.normSq (get_view_basis 0 1 (3/5) (4/5) 1).2.2 = 1 ∧
    Vec3.dot (get_view_basis 0 1 (3/5) (4/5) 1).1
      (get_view_basis 0 1 (3/5) (4/5) 1).2.1 = 0 ∧
    Vec3.dot (get_view_basis 0 1 (3/5) (4/5) 1).1
      (get_view_basis 0 1 (3/5) (4/5) 1).2.2 = 0 ∧
    Vec3.dot (get_view_basis 0 1 (3/5) (4/5) 1).2.1
      (get_view_basis 0 1 (3/5) (4/5) 1).2.2 = 0 :=
  view_basis_orthonormal 0 1 (3/5) (4/5) 1 (by norm_num) (by norm_num)
    (by norm_num) (by norm_num) (by norm_num [Vec3.cross, Vec3.normSq])

/-- world.py `Shell` state, tracer trail included. -/
structure Shell where
  pos : Vec3
  vel : Vec3
  alive : Bool
  time : ℚ
  trail : List Vec3
  trail_timer : ℚ
deriving DecidableEq, Repr

/-- world.py `Shell.__init__`. -/
def Shell.init (position velocity : Vec3) : Shell :=
  { pos := position, vel := velocity, alive := true, time := 0,
    trail := [position], trail_timer := 0 }

/-- world.py `Shell.step`, one integration sub-step of size `dt`.  `speed`
    stands for the float `np.linalg.norm(self.vel)` (supplied explicitly;
    theorems constrain it by `0 ≤ speed` and `speed * speed = normSq vel`),
    and `g` is the settings.py constant GRAVITY (9.81 in the game; a claim
    that isolates drag sets it to 0).  Returns the stepped shell together
    with the pair (prev position, current position). -/
def Shell.step (g : ℚ) (s : Shell) (speed dt : ℚ) : Shell × Vec3 × Vec3 :=
  let prev := s.pos
  let v1 := if speed > 0 then
      s.vel - (DRAG_K * speed * speed * dt) • normalizeWith s.vel speed
    else s.vel
  let v2 : Vec3 := ⟨v1.x, v1.y - g * dt, v1.z⟩
  let pos := s.pos + dt • v2
  let time := s.time + dt
  let tt0 := s.trail_timer + dt
  let trailPair :=
    if tt0 ≥ TRACER_SAMPLE_INTERVAL then
      ((if (s.trail ++ [pos]).length > TRACER_TRAIL_LENGTH then
          (s.trail ++ [pos]).tail
        else s.trail ++ [pos]), (0 : ℚ))
    else (s.trail, tt0)
  let alive := if time > SHELL_MAX_TIME then false else s.alive
  ({ pos := pos, vel := v2, alive := alive, time := time,
     trail := trailPair.1, trail_timer := trailPair.2 }, prev, pos)

/-- The velocity component of one sub-step, read off the definition. -/
theorem Shell.step_vel (g : ℚ) (s : Shell) (speed dt : ℚ) :
    (Shell.step g s speed dt).1.vel =
      ⟨(if speed > 0 then
          s.vel - (DRAG_K * speed * speed * dt) • normalizeWith s.vel speed
        else s.vel).x,
       (if speed > 0 then
          s.vel - (DRAG_K * speed * speed * dt) • normalizeWith s.vel speed
        else s.vel).y - g * dt,
       (if speed > 0 then
          s.vel - (DRAG_K * speed * speed * dt) • normalizeWith s.vel speed
        else s.vel).z⟩ := rfl

/-- The held-key state read by world.py `PlayerGun.update` (the pygame keys
    A, D, UP, DOWN, LSHIFT, RSHIFT). -/
structure Keys where
  a : Bool
  d : Bool
  up : Bool
  down : Bool
  lshift : Bool
  rshift : Bool
deriving DecidableEq, Repr

/-- world.py `PlayerGun.update`: the traverse-speed ramp, traverse and
    elevation integration with the elevation clamp, and the reload
    countdown. -/
def PlayerGun.update (g : PlayerGun) (dt : ℚ) (k : Keys) : PlayerGun :=
  let shift_held := k.lshift || k.rshift
  let traversing := k.a || k.d
  let ramp := if shift_held && traversing then
      min (g.traverse_ramp + dt) TRAVERSE_RAMP_TIME
    else 0
  let t := if TRAVERSE_RAMP_TIME > 0 then ramp / TRAVERSE_RAMP_TIME else 1
  let traverse_speed :=
    radians (TRAVERSE_SPEED_DEG + (TRAVERSE_SPEED_FAST_DEG - TRAVERSE_SPEED_DEG) * t)
  let trav1 := if k.a then g.traverse + traverse_speed * dt else g.traverse
  let trav2 := if k.d then trav1 - traverse_speed * dt else trav1
  let elev1 := if k.up then g.elevation + radians ELEVATION_SPEED_DEG * dt
    else g.elevation
  let elev2 := if k.down then elev1 - radians ELEVATION_SPEED_DEG * dt else elev1
  let elev3 := max (radians MIN_ELEVATION_DEG) (min (radians MAX_ELEVATION_DEG) elev2)
  let reload := if !g.ready then
      if g.reload_timer - dt ≤ 0 then ((0 : ℚ), true)
      else (g.reload_timer - dt, g.ready)
    else (g.reload_timer, g.ready)
  { g with traverse := trav2, elevation := elev3, traverse_ramp := ramp,
           reload_timer := reload.1, ready := reload.2 }

/-- world.py `PlayerGun.fire`.  `forward` stands for the dispersed direction
    `get_view_basis(elev + gauss, trav + gauss)[0]` (random draws and
    trigonometry supplied from outside); the ready/reload transition and
    whether a shell is produced do not depend on it. -/
def PlayerGun.fire (g : PlayerGun) (forward : Vec3) : PlayerGun × Option Shell :=
  if !g.ready then (g, none)
  else
    ({ g with ready := false, reload_timer := RELOAD_TIME },
     some (Shell.init (g.eye + (2 : ℚ) • forward) (SHELL_MUZZLE_VELOCITY • forward)))

/-- While a reload is in progress, updates whose total elapsed time stays
    below the remaining reload timer leave the gun not ready. -/
theorem update_fold_reloading (steps : List (ℚ × Keys)) (g : PlayerGun)
    (hready : g.ready = false)
    (hpos : ∀ p ∈ steps, 0 ≤ p.1)
    (hT : (steps.map Prod.fst).sum < g.reload_timer) :
    (steps.foldl (fun s p => PlayerGun.update s p.1 p.2) g).ready = false := by
  induction steps generalizing g with
  | nil => simpa using hready
  | cons p ps ih =>
    have hsum0 : 0 ≤ (ps.map Prod.fst).sum := by
      apply List.sum_nonneg
      intro x hx
      obtain ⟨q, hq, rfl⟩ := List.mem_map.mp hx
      exact hpos q (List.mem_cons_of_mem p hq)
    have hdt : 0 ≤ p.1 := hpos p (List.mem_cons_self p ps)
    have hT' : p.1 + (ps.map Prod.fst).sum < g.reload_timer := by
      simpa using hT
    have hgt : ¬(g.reload_timer - p.1 ≤ 0) := by
      push_neg
      linarith
    have hst : (PlayerGun.update g p.1 p.2).ready = false ∧
        (PlayerGun.update g p.1 p.2).reload_timer = g.reload_timer - p.1 := by
      simp [PlayerGun.update, hready, hgt]
    rw [List.foldl_cons]
    apply ih _ hst.1 (fun q hq => hpos q (List.mem_cons_of_mem p hq))
    rw [hst.2]
    linarith

/-- C9: fire() on a not-ready gun returns no shell and leaves the whole gun
    state unchanged (the same record comes back: elevation, traverse,
    reload_timer, ready and the traverse-ramp accumulator included);
    consequently two fire() calls separated by updates totalling less than
    RELOAD_TIME of elapsed time produce exactly one shell — the first call
    fires, the second returns none. -/
theorem fire_not_ready_noop (g : PlayerGun) (f1 f2 : Vec3)
    (steps : List (ℚ × Keys)) :
    (g.ready = false → PlayerGun.fire g f1 = (g, none)) ∧
    (g.ready = true → (∀ p ∈ steps, 0 ≤ p.1) →
      (steps.map Prod.fst).sum < RELOAD_TIME →
      (PlayerGun.fire g f1).2.isSome = true ∧
      (PlayerGun.fire (steps.foldl (fun s p => PlayerGun.update s p.1 p.2)
        (PlayerGun.fire g f1).1) f2).2 = none) := by
  constructor
  · intro hnr
    simp [PlayerGun.fire, hnr]
  · intro hr hpos hsum
    have hfire1 : (PlayerGun.fire g f1).1.ready = false ∧
        (PlayerGun.fire g f1).1.reload_timer = RELOAD_TIME ∧
        (PlayerGun.fire g f1).2.isSome = true := by
      simp [PlayerGun.fire, hr]
    refine ⟨hfire1.2.2, ?_⟩
    have hfold := update_fold_reloading steps (PlayerGun.fire g f1).1 hfire1.1 hpos
      (by rw [hfire1.2.1]; exact hsum)
    have hfa : ∀ h : PlayerGun, h.ready = false → ∀ f : Vec3,
        PlayerGun.fire h f = (h, none) := by
      intro h hh f
      simp [PlayerGun.fire, hh]
    rw [hfa _ hfold f2]

/-- No keys held. -/
def idleKeys : Keys := ⟨false, false, false, false, false, false⟩

/-- Witness for C9: from the initial (ready) gun, fire, update for 1 s and
    2 s (3 s < RELOAD_TIME = 5 s), fire again: the first call produces a
    shell, the second produces none. -/
theorem fire_not_ready_noop_witness :
    (PlayerGun.fire PlayerGun.init ⟨0, 0, 1⟩).2.isSome = true ∧
    (PlayerGun.fire ([((1 : ℚ), idleKeys), ((2 : ℚ), idleKeys)].foldl
      (fun s p => PlayerGun.update s p.1 p.2)
      (PlayerGun.fire PlayerGun.init ⟨0, 0, 1⟩).1) ⟨0, 0, 1⟩).2 = none := by
  refine (fire_not_ready_noop PlayerGun.init ⟨0, 0, 1⟩ ⟨0, 0, 1⟩
    [((1 : ℚ), idleKeys), ((2 : ℚ), idleKeys)]).2 (by simp [PlayerGun.init]) ?_ ?_
  · intro p hp
    simp at hp
    rcases hp with rfl | rfl <;> norm_num
  · simp [RELOAD_TIME]
    norm_num

/-- C5 as stated fails on the code: with gravity zeroed (drag only), a shell
    whose speed is 10^7 m/s (an exact rational, so the injected norm matches
    the velocity) comes out of one SIM_DT sub-step FASTER: the drag factor
    1 - DRAG_K·speed·SIM_DT = -2.6 overshoots, flips the velocity and
    enlarges it (squared speed 6.76×10^14 > 10^14). -/
theorem shell_step_speed_can_increase :
    (0 : ℚ) < 10000000 ∧
    (10000000 : ℚ) * 10000000 = Vec3.normSq ⟨10000000, 0, 0⟩ ∧
    Vec3.normSq ((Shell.step 0 (Shell.init ⟨0, 2, 0⟩ ⟨10000000, 0, 0⟩)
        10000000 SIM_DT).1.vel) >
      Vec3.normSq (⟨10000000, 0, 0⟩ : Vec3) := by
  refine ⟨by norm_num, by norm_num [Vec3.normSq], ?_⟩
  rw [Shell.step_vel]
  norm_num [Shell.init, normalizeWith, Vec3.normSq, DRAG_K, SIM_DT]

/-- C5 amended: for a shell with zero gravity isolated (drag only), each
    SIM_DT sub-step strictly decreases the speed, for every positive speed
    below 2 / (DRAG_K · SIM_DT) ≈ 5.56×10^6 m/s — a bound far above every
    speed the game can produce, since shells start at the 750 m/s muzzle
    velocity and drag only slows them. -/
theorem shell_step_drag_decreases_speed (s : Shell) (speed : ℚ)
    (hs0 : 0 < speed) (hsq : speed * speed = Vec3.normSq s.vel)
    (hsmall : speed < 2 / (DRAG_K * SIM_DT)) :
    Vec3.normSq ((Shell.step 0 s speed SIM_DT).1.vel) < Vec3.normSq s.vel := by
  have hkpos : (0 : ℚ) < DRAG_K * SIM_DT := by norm_num [DRAG_K, SIM_DT]
  have hsum : 0 < s.vel.x * s.vel.x + s.vel.y * s.vel.y + s.vel.z * s.vel.z := by
    have := mul_pos hs0 hs0
    rw [hsq] at this
    exact this
  rw [Shell.step_vel, if_pos hs0]
  by_cases hb : speed > (1 : ℚ) / 1000000000000
  · have hfac : s.vel - (DRAG_K * speed * speed * SIM_DT) • normalizeWith s.vel speed
        = (1 - DRAG_K * SIM_DT * speed) • s.vel := by
      rw [normalizeWith, if_pos hb]
      ext <;>
        simp only [Vec3.sub_x, Vec3.sub_y, Vec3.sub_z, Vec3.smul_x, Vec3.smul_y,
          Vec3.smul_z] <;>
        field_simp <;> ring
    rw [hfac]
    simp only [Vec3.normSq, Vec3.smul_x, Vec3.smul_y, Vec3.smul_z]
    have h2 : DRAG_K * SIM_DT * speed < 2 := by
      have := (lt_div_iff hkpos).mp hsmall
      linarith
    have h1 : 0 < DRAG_K * SIM_DT * speed := mul_pos hkpos hs0
    nlinarith [mul_pos (mul_pos h1 (show (0 : ℚ) < 2 - DRAG_K * SIM_DT * speed by
      linarith)) hsum]
  · have hfac : s.vel - (DRAG_K * speed * speed * SIM_DT) • normalizeWith s.vel speed
        = (1 - DRAG_K * SIM_DT * (speed * speed)) • s.vel := by
      rw [normalizeWith, if_neg hb]
      ext <;>
        simp only [Vec3.sub_x, Vec3.sub_y, Vec3.sub_z, Vec3.smul_x, Vec3.smul_y,
          Vec3.smul_z] <;>
        ring
    rw [hfac]
    simp only [Vec3.normSq, Vec3.smul_x, Vec3.smul_y, Vec3.smul_z]
    push_neg at hb
    have hss : speed * speed ≤ 1 / 1000000000000000000000000 := by nlinarith
    have h1 : 0 < DRAG_K * SIM_DT * (speed * speed) :=
      mul_pos hkpos (mul_pos hs0 hs0)
    have h2 : DRAG_K * SIM_DT * (speed * speed) < 2 := by
      norm_num [DRAG_K, SIM_DT] at h1 ⊢
      nlinarith
    nlinarith [mul_pos (mul_pos h1 (show (0 : ℚ) < 2 - DRAG_K * SIM_DT * (speed * speed) by
      linarith)) hsum]

/-- Witness for the amended C5 at velocity (3,4,0), speed 5. -/
theorem shell_step_drag_decreases_speed_witness :
    Vec3.normSq ((Shell.step 0 (Shell.init ⟨0, 2, 0⟩ ⟨3, 4, 0⟩) 5 SIM_DT).1.vel) <
      Vec3.normSq (Shell.init ⟨0, 2, 0⟩ ⟨3, 4, 0⟩).vel :=
  shell_step_drag_decreases_speed (Shell.init ⟨0, 2, 0⟩ ⟨3, 4, 0⟩) 5
    (by norm_num) (by norm_num [Shell.init, Vec3.normSq])
    (by norm_num [DRAG_K, SIM_DT])

/-- Tolerance of world.py `segment_aabb_intersect` below which a direction
    component counts as parallel to the slab (the literal 1e-12). -/
def SLAB_EPS : ℚ := 1 / 1000000000000

/-- One iteration of the per-axis slab loop of world.py
    `segment_aabb_intersect` (the body of `for i in range(3)`), acting on the
    running `Option (tmin, tmax)` interval; `none` stands for an early
    `return None`.  The source swaps `t1, t2` when inverted, which is written
    here as `min`/`max` of the two crossing parameters. -/
def slabUpdate (p0i di mni mxi : ℚ) (acc : Option (ℚ × ℚ)) : Option (ℚ × ℚ) :=
  match acc with
  | none => none
  | some (tmin, tmax) =>
    if |di| < SLAB_EPS then
      if p0i < mni ∨ p0i > mxi then none else some (tmin, tmax)
    else
      let inv_d := 1 / di
      let t1 := (mni - p0i) * inv_d
      let t2 := (mxi - p0i) * inv_d
      let tmin2 := max tmin (min t1 t2)
      let tmax2 := min tmax (max t1 t2)
      if tmin2 > tmax2 then none else some (tmin2, tmax2)

/-- world.py `segment_aabb_intersect`: slab test of the segment p0 → p1
    against the box [aabb_min, aabb_max], starting from the parameter interval
    [0, 1] and visiting the axes in order x, y, z; on success returns
    `p0 + tmin • (p1 - p0)`. -/
def segment_aabb_intersect (p0 p1 aabb_min aabb_max : Vec3) : Option Vec3 :=
  (slabUpdate p0.z (p1 - p0).z aabb_min.z aabb_max.z
      (slabUpdate p0.y (p1 - p0).y aabb_min.y aabb_max.y
        (slabUpdate p0.x (p1 - p0).x aabb_min.x aabb_max.x (some (0, 1))))).map
    (fun s => p0 + s.1 • (p1 - p0))

theorem slabUpdate_none (p0i di mni mxi : ℚ) :
    slabUpdate p0i di mni mxi none = none := rfl

/-- If one axis of the segment lies entirely beyond the slab's upper plane,
    that axis of the slab loop rejects (for any running interval inside
    [0, 1]). -/
theorem slabUpdate_miss_high (p0i di mni mxi tmin tmax : ℚ)
    (hbox : mni ≤ mxi) (h0 : mxi < p0i) (h1 : mxi < p0i + di)
    (htmin : 0 ≤ tmin) (htmax : tmax ≤ 1) :
    slabUpdate p0i di mni mxi (some (tmin, tmax)) = none := by
  simp only [slabUpdate]
  by_cases hpar : |di| < SLAB_EPS
  · rw [if_pos hpar, if_pos (Or.inr h0)]
  · rw [if_neg hpar]
    have hdne : di ≠ 0 := by
      intro h
      exact hpar (by rw [h]; norm_num [SLAB_EPS])
    have hcancel : di * (1 / di) = 1 := mul_one_div_cancel hdne
    rcases lt_or_gt_of_ne hdne with hneg | hpos
    · -- direction negative: both crossing parameters exceed 1
      have hu : (1 : ℚ) / di < 0 := one_div_neg.mpr hneg
      have h2 : 1 < (mxi - p0i) * (1 / di) := by
        nlinarith [mul_pos_of_neg_of_neg (show mxi - p0i - di < 0 by linarith) hu]
      have h12 : (mxi - p0i) * (1 / di) ≤ (mni - p0i) * (1 / di) := by
        nlinarith [mul_nonneg (show (0 : ℚ) ≤ mxi - mni by linarith)
          (show (0 : ℚ) ≤ -(1 / di) by linarith)]
      rw [if_pos]
      have hminlt : 1 < min ((mni - p0i) * (1 / di)) ((mxi - p0i) * (1 / di)) :=
        lt_min_iff.mpr ⟨by linarith, h2⟩
      have := le_max_right tmin (min ((mni - p0i) * (1 / di)) ((mxi - p0i) * (1 / di)))
      have := min_le_left tmax (max ((mni - p0i) * (1 / di)) ((mxi - p0i) * (1 / di)))
      linarith
    · -- direction positive: both crossing parameters are negative
      have hu : (0 : ℚ) < 1 / di := one_div_pos.mpr hpos
      have h2 : (mxi - p0i) * (1 / di) < 0 :=
        mul_neg_of_neg_of_pos (by linarith) hu
      have h12 : (mni - p0i) * (1 / di) ≤ (mxi - p0i) * (1 / di) := by
        nlinarith [mul_nonneg (show (0 : ℚ) ≤ mxi - mni by linarith) (le_of_lt hu)]
      rw [if_pos]
      have hmaxlt : max ((mni - p0i) * (1 / di)) ((mxi - p0i) * (1 / di)) < 0 :=
        max_lt_iff.mpr ⟨by linarith, h2⟩
      have := le_max_left tmin (min ((mni - p0i) * (1 / di)) ((mxi - p0i) * (1 / di)))
      have := min_le_right tmax (max ((mni - p0i) * (1 / di)) ((mxi - p0i) * (1 / di)))
      linarith

/-- If the start point lies inside the slab on this axis, the axis keeps the
    running lower bound 0 and some nonnegative upper bound. -/
theorem slabUpdate_inside (p0i di mni mxi tmax : ℚ)
    (hlo : mni ≤ p0i) (hhi : p0i ≤ mxi) (htmax : 0 ≤ tmax) :
    ∃ tm2, 0 ≤ tm2 ∧ slabUpdate p0i di mni mxi (some (0, tmax)) = some (0, tm2) := by
  simp only [slabUpdate]
  by_cases hpar : |di| < SLAB_EPS
  · refine ⟨tmax, htmax, ?_⟩
    rw [if_pos hpar, if_neg]
    push_neg
    exact ⟨by linarith, by linarith⟩
  · rw [if_neg hpar]
    have hdne : di ≠ 0 := by
      intro h
      exact hpar (by rw [h]; norm_num [SLAB_EPS])
    have hsign : ((mni - p0i) * (1 / di)) * ((mxi - p0i) * (1 / di)) ≤ 0 := by
      rcases lt_or_gt_of_ne hdne with hneg | hpos
      · have hu : (1 : ℚ) / di < 0 := one_div_neg.mpr hneg
        nlinarith [mul_nonneg (mul_nonneg (show (0 : ℚ) ≤ p0i - mni by linarith)
            (show (0 : ℚ) ≤ -(1 / di) by linarith))
          (mul_nonneg (show (0 : ℚ) ≤ mxi - p0i by linarith)
            (show (0 : ℚ) ≤ -(1 / di) by linarith))]
      · have hu : (0 : ℚ) < 1 / di := one_div_pos.mpr hpos
        nlinarith [mul_nonneg (mul_nonneg (show (0 : ℚ) ≤ p0i - mni by linarith)
            (le_of_lt hu))
          (mul_nonneg (show (0 : ℚ) ≤ mxi - p0i by linarith) (le_of_lt hu))]
    have hminle : min ((mni - p0i) * (1 / di)) ((mxi - p0i) * (1 / di)) ≤ 0 := by
      by_contra hgt
      push_neg at hgt
      have ha := lt_of_lt_of_le hgt (min_le_left _ _)
      have hb := lt_of_lt_of_le hgt (min_le_right _ _)
      nlinarith
    have hmaxge : 0 ≤ max ((mni - p0i) * (1 / di)) ((mxi - p0i) * (1 / di)) := by
      by_contra hlt
      push_neg at hlt
      have ha := lt_of_le_of_lt (le_max_left _ ((mxi - p0i) * (1 / di))) hlt
      have hb := lt_of_le_of_lt (le_max_right ((mni - p0i) * (1 / di)) _) hlt
      nlinarith
    have hmineq : max 0 (min ((mni - p0i) * (1 / di)) ((mxi - p0i) * (1 / di))) = 0 :=
      max_eq_left hminle
    refine ⟨min tmax (max ((mni - p0i) * (1 / di)) ((mxi - p0i) * (1 / di))),
      le_min htmax hmaxge, ?_⟩
    rw [hmineq, if_neg]
    push_neg
    exact le_min htmax hmaxge

/-- C8: the segment (0,5,0) → (0,-5,0) against the box [-1,1]³ intersects at
    (0,1,0); and any segment lying entirely beyond the box's upper x plane
    (both endpoints with x greater than `aabb_max.x`) yields no
    intersection. -/
theorem segment_aabb_slab_cases :
    segment_aabb_intersect ⟨0, 5, 0⟩ ⟨0, -5, 0⟩ ⟨-1, -1, -1⟩ ⟨1, 1, 1⟩ =
      some ⟨0, 1, 0⟩ ∧
    ∀ p0 p1 mn mx : Vec3, mn.x ≤ mx.x → mx.x < p0.x → mx.x < p1.x →
      segment_aabb_intersect p0 p1 mn mx = none := by
  constructor
  · have hx : slabUpdate (0 : ℚ) 0 (-1) 1 (some (0, 1)) = some (0, 1) := by
      norm_num [slabUpdate, SLAB_EPS]
    have hy : slabUpdate (5 : ℚ) (-10) (-1) 1 (some (0, 1)) = some (2/5, 3/5) := by
      norm_num [slabUpdate, SLAB_EPS, min_def, max_def]
    have hz : slabUpdate (0 : ℚ) 0 (-1) 1 (some (2/5, 3/5)) = some (2/5, 3/5) := by
      norm_num [slabUpdate, SLAB_EPS]
    unfold segment_aabb_intersect
    norm_num [hx, hy, hz]
    ext <;> norm_num
  · intro p0 p1 mn mx hbox h0 h1
    have hx : slabUpdate p0.x (p1 - p0).x mn.x mx.x (some (0, 1)) = none := by
      apply slabUpdate_miss_high _ _ _ _ _ _ hbox h0 _ le_rfl le_rfl
      simp only [Vec3.sub_x]
      linarith
    unfold segment_aabb_intersect
    rw [hx, slabUpdate_none, slabUpdate_none]
    rfl

/-- Witness for C8's general part: the segment (5,0,0) → (6,0,0) stays beyond
    x = 1 of the box [-1,1]³ and gets no intersection. -/
theorem segment_aabb_slab_cases_witness :
    segment_aabb_intersect ⟨5, 0, 0⟩ ⟨6, 0, 0⟩ ⟨-1, -1, -1⟩ ⟨1, 1, 1⟩ = none :=
  segment_aabb_slab_cases.2 ⟨5, 0, 0⟩ ⟨6, 0, 0⟩ ⟨-1, -1, -1⟩ ⟨1, 1, 1⟩
    (by norm_num) (by norm_num) (by norm_num)

/-- C10: whenever the start point `p0` lies componentwise inside the box (and
    the box is well formed, `aabb_min ≤ aabb_max` componentwise), the slab test
    returns `p0` itself: the entry parameter stays 0 regardless of the
    segment's direction or length. -/
theorem segment_start_inside (p0 p1 mn mx : Vec3)
    (hbx : mn.x ≤ mx.x) (hby : mn.y ≤ mx.y) (hbz : mn.z ≤ mx.z)
    (h1 : mn.x ≤ p0.x) (h2 : p0.x ≤ mx.x)
    (h3 : mn.y ≤ p0.y) (h4 : p0.y ≤ mx.y)
    (h5 : mn.z ≤ p0.z) (h6 : p0.z ≤ mx.z) :
    segment_aabb_intersect p0 p1 mn mx = some p0 := by
  obtain ⟨ta, hta, hxa⟩ :=
    slabUpdate_inside p0.x (p1 - p0).x mn.x mx.x 1 h1 h2 (by norm_num)
  obtain ⟨tb, htb, hxb⟩ :=
    slabUpdate_inside p0.y (p1 - p0).y mn.y mx.y ta h3 h4 hta
  obtain ⟨tc, htc, hxc⟩ :=
    slabUpdate_inside p0.z (p1 - p0).z mn.z mx.z tb h5 h6 htb
  unfold segment_aabb_intersect
  rw [hxa, hxb, hxc]
  show some (p0 + (0 : ℚ) • (p1 - p0)) = some p0
  congr 1
  ext <;> simp

/-- Witness for C10: start point (0,0,0) inside the box [-1,1]³, segment to
    (5,5,5): the intersection point is the start point itself. -/
theorem segment_start_inside_witness :
    segment_aabb_intersect ⟨0, 0, 0⟩ ⟨5, 5, 5⟩ ⟨-1, -1, -1⟩ ⟨1, 1, 1⟩ =
      some ⟨0, 0, 0⟩ :=
  segment_start_inside ⟨0, 0, 0⟩ ⟨5, 5, 5⟩ ⟨-1, -1, -1⟩ ⟨1, 1, 1⟩
    (by norm_num) (by norm_num) (by norm_num) (by norm_num) (by norm_num)
    (by norm_num) (by norm_num) (by norm_num) (by norm_num)

theorem rangeLine_at_37 : rangeLine 37 = "LONG 50m — DROP" := by
  have hcast : ((SPOTTER_ROUND_TO : ℤ) : ℚ) = 50 := by norm_num [SPOTTER_ROUND_TO]
  have hfl : ⌊(37 / 50 : ℚ)⌋ = 0 := by
    rw [Int.floor_eq_iff] <;> norm_num
  have hpr : pythonRound (37 / 50) = 1 := by
    rw [pythonRound, hfl]
    norm_num
  have hsr : spotterRounded |(37 : ℚ)| = 50 := by
    rw [show |(37 : ℚ)| = 37 by norm_num, spotterRounded, hcast, hpr, SPOTTER_ROUND_TO]
    norm_num
  rw [rangeLine, if_neg (by norm_num [SPOTTER_MIN_CORRECTION]),
    if_pos (by norm_num : (37 : ℚ) > 0), hsr]
  rfl

theorem rangeLine_at_5 : rangeLine 5 = "RANGE: ON" := by
  rw [rangeLine, if_pos (by norm_num [SPOTTER_MIN_CORRECTION])]

/-- The quantized correction is the positive multiple of 50 nearest to the
    absolute error (ties permitted either way), once the error reaches the
    minimum-correction threshold. -/
theorem spotterRounded_nearest (a : ℚ) (ha : 10 ≤ a) :
    (50 : ℤ) ≤ spotterRounded a ∧ (50 : ℤ) ∣ spotterRounded a ∧
    ∀ m : ℤ, 0 < m → (50 : ℤ) ∣ m →
      |(spotterRounded a : ℚ) - a| ≤ |(m : ℚ) - a| := by
  have hcast : ((SPOTTER_ROUND_TO : ℤ) : ℚ) = 50 := by norm_num [SPOTTER_ROUND_TO]
  have hnear := pythonRound_near (a / 50)
  set k := pythonRound (a / 50) with hk
  have h50 : spotterRounded a = max 50 (k * 50) := by
    rw [spotterRounded, hcast, SPOTTER_ROUND_TO, ← hk]
  rcases le_or_lt k 0 with hk0 | hk1
  · have hval : spotterRounded a = 50 := by
      rw [h50, max_eq_left (by omega : k * 50 ≤ 50)]
    have ha25 : a ≤ 25 := by
      have h1 := (abs_le.mp hnear).1
      have hk0q : (k : ℚ) ≤ 0 := by exact_mod_cast hk0
      linarith
    refine ⟨by rw [hval], by rw [hval], ?_⟩
    intro m hm hdvd
    obtain ⟨j, rfl⟩ := hdvd
    have hm50 : (50 : ℚ) ≤ ((50 * j : ℤ) : ℚ) := by
      exact_mod_cast (by omega : (50 : ℤ) ≤ 50 * j)
    rw [hval]
    push_cast at hm50 ⊢
    rw [abs_of_nonneg (by linarith), abs_of_nonneg (by linarith)]
    linarith
  · have hval : spotterRounded a = k * 50 := by
      rw [h50, max_eq_right (by omega : (50 : ℤ) ≤ k * 50)]
    have h25 : |(k : ℚ) * 50 - a| ≤ 25 := by
      have heq : (k : ℚ) * 50 - a = ((k : ℚ) - a / 50) * 50 := by ring
      rw [heq, abs_mul, abs_of_nonneg (by norm_num : (0 : ℚ) ≤ 50)]
      have := abs_sub_comm (k : ℚ) (a / 50)
      linarith [hnear, abs_sub_comm ((k : ℚ)) (a / 50),
        le_trans (le_of_eq (abs_sub_comm ((k : ℚ)) (a / 50)).symm) hnear]
    refine ⟨by rw [hval]; omega, by rw [hval]; exact ⟨k, by ring⟩, ?_⟩
    intro m hm hdvd
    obtain ⟨j, rfl⟩ := hdvd
    by_cases hjk : j = k
    · subst hjk
      rw [hval]
      push_cast
      apply le_of_eq
      congr 1
      ring
    · have hjk1 : (1 : ℚ) ≤ |(j : ℚ) - (k : ℚ)| := by
        have h1 : (1 : ℤ) ≤ |j - k| := by
          rcases lt_or_gt_of_ne hjk with h | h
          · rw [abs_of_neg (by omega : j - k < 0)]
            omega
          · rw [abs_of_pos (by omega : 0 < j - k)]
            omega
        have h2 : ((|j - k| : ℤ) : ℚ) = |(j : ℚ) - (k : ℚ)| := by
          push_cast
          rfl
        rw [← h2]
        exact_mod_cast h1
      have hfar : (50 : ℚ) ≤ |(50 : ℚ) * j - (k : ℚ) * 50| := by
        have heq : (50 : ℚ) * j - (k : ℚ) * 50 = ((j : ℚ) - k) * 50 := by ring
        rw [heq, abs_mul, abs_of_nonneg (by norm_num : (0 : ℚ) ≤ 50)]
        linarith
      have htri := abs_sub_le ((50 : ℚ) * j) a ((k : ℚ) * 50)
      have hcomm : |a - (k : ℚ) * 50| = |(k : ℚ) * 50 - a| := abs_sub_comm _ _
      rw [hval]
      push_cast
      linarith

/-- C4 as stated fails on the code: the range line for a +37 m error carries
    an advisory suffix — it is "LONG 50m — DROP", not the bare string
    "LONG 50m". -/
theorem range_line_not_bare_long :
    rangeLine 37 = "LONG 50m — DROP" ∧ rangeLine 37 ≠ "LONG 50m" := by
  refine ⟨rangeLine_at_37, ?_⟩
  rw [rangeLine_at_37]
  decide

/-- C4 amended: with rounding unit 50 and threshold 10, a +37 m range error
    produces the range line "LONG 50m — DROP" (a LONG 50m correction plus the
    advisory suffix, not an ON line), an error of magnitude 5 produces
    "RANGE: ON", and in general an error at or above the threshold is
    quantized to the positive multiple of the rounding unit nearest the
    absolute error (minimum one unit; ties permitted either way). -/
theorem spotter_rounding_amended :
    rangeLine 37 = "LONG 50m — DROP" ∧
    rangeLine 5 = "RANGE: ON" ∧
    ∀ e : ℚ, SPOTTER_MIN_CORRECTION ≤ |e| →
      SPOTTER_ROUND_TO ≤ spotterRounded (|e|) ∧
      SPOTTER_ROUND_TO ∣ spotterRounded (|e|) ∧
      ∀ m : ℤ, 0 < m → SPOTTER_ROUND_TO ∣ m →
        |(spotterRounded (|e|) : ℚ) - (|e|)| ≤ |(m : ℚ) - (|e|)| := by
  refine ⟨rangeLine_at_37, rangeLine_at_5, ?_⟩
  intro e he
  have h10 : (10 : ℚ) ≤ |e| := by
    simpa [SPOTTER_MIN_CORRECTION] using he
  obtain ⟨ha, hb, hc⟩ := spotterRounded_nearest |e| h10
  exact ⟨by simpa [SPOTTER_ROUND_TO] using ha,
    by simpa [SPOTTER_ROUND_TO] using hb,
    fun m hm hd => hc m hm (by simpa [SPOTTER_ROUND_TO] using hd)⟩

/-- Witness for the amended C4 at the error +37 and the candidate multiple
    50. -/
theorem spotter_rounding_amended_witness :
    rangeLine 37 = "LONG 50m — DROP" ∧
    (50 : ℤ) ≤ spotterRounded (|(37 : ℚ)|) ∧
    |(spotterRounded (|(37 : ℚ)|) : ℚ) - (|(37 : ℚ)|)| ≤
      |((50 : ℤ) : ℚ) - (|(37 : ℚ)|)| := by
  have h := spotter_rounding_amended
  have h37 := h.2.2 37 (by norm_num [SPOTTER_MIN_CORRECTION])
  exact ⟨h.1, by simpa [SPOTTER_ROUND_TO] using h37.1,
    h37.2.2 50 (by norm_num) (by norm_num [SPOTTER_ROUND_TO])⟩

/-- world.py `check_ground_hit`: if the shell crossed the ground plane Y = 0
    between `prev_pos` and `curr_pos` (current y ≤ 0 and previous y > 0),
    return the linearly interpolated crossing point with its y forced to 0;
    otherwise return `none`. -/
def check_ground_hit (prev_pos curr_pos : Vec3) : Option Vec3 :=
  if curr_pos.y ≤ 0 ∧ prev_pos.y > 0 then
    let t := prev_pos.y / (prev_pos.y - curr_pos.y)
    let hit := prev_pos + t • (curr_pos - prev_pos)
    some ⟨hit.x, 0, hit.z⟩
  else
    none

/-- C7: `check_ground_hit prev curr` returns a point iff `prev.y > 0` and
    `curr.y ≤ 0`; the returned point is exactly the linear interpolation of
    `prev` and `curr` at the parameter `prev.y / (prev.y - curr.y)` of the
    Y = 0 crossing, and its y component is 0; in particular for `prev.y = 2`
    and `curr.y = -1` the point lies 2/3 of the way from `prev` to `curr`.
    Otherwise it returns `none`. -/
theorem check_ground_hit_correct (prev curr : Vec3) :
    (check_ground_hit prev curr = none ↔ ¬(prev.y > 0 ∧ curr.y ≤ 0)) ∧
    (prev.y > 0 → curr.y ≤ 0 →
      check_ground_hit prev curr =
        some (prev + (prev.y / (prev.y - curr.y)) • (curr - prev)) ∧
      (prev + (prev.y / (prev.y - curr.y)) • (curr - prev)).y = 0) ∧
    (prev.y = 2 → curr.y = -1 →
      check_ground_hit prev curr = some (prev + (2 / 3 : ℚ) • (curr - prev)) ∧
      (prev + (2 / 3 : ℚ) • (curr - prev)).y = 0) := by
  have key : ∀ hp : prev.y > 0, ∀ hc : curr.y ≤ 0,
      check_ground_hit prev curr =
        some (prev + (prev.y / (prev.y - curr.y)) • (curr - prev)) ∧
      (prev + (prev.y / (prev.y - curr.y)) • (curr - prev)).y = 0 := by
    intro hp hc
    have hden : prev.y - curr.y > 0 := by linarith
    have hy : (prev + (prev.y / (prev.y - curr.y)) • (curr - prev)).y = 0 := by
      simp only [Vec3.add_y, Vec3.smul_y, Vec3.sub_y]
      field_simp
      ring
    refine ⟨?_, hy⟩
    unfold check_ground_hit
    rw [if_pos (show curr.y ≤ 0 ∧ prev.y > 0 from ⟨hc, hp⟩)]
    show some ⟨(prev + (prev.y / (prev.y - curr.y)) • (curr - prev)).x, 0,
               (prev + (prev.y / (prev.y - curr.y)) • (curr - prev)).z⟩ =
         some (prev + (prev.y / (prev.y - curr.y)) • (curr - prev))
    congr 1
    ext
    · rfl
    · exact hy.symm
    · rfl
  refine ⟨?_, fun hp hc => key hp hc, ?_⟩
  · constructor
    · intro hnone hcross
      rcases (key hcross.1 hcross.2).1 with heq
      rw [hnone] at heq
      exact Option.noConfusion heq
    · intro hncross
      unfold check_ground_hit
      rw [if_neg]
      intro ⟨hc, hp⟩
      exact hncross ⟨hp, hc⟩
  · intro hp hc
    have h2 : prev.y > 0 := by rw [hp]; norm_num
    have h3 : curr.y ≤ 0 := by rw [hc]; norm_num
    have ht : prev.y / (prev.y - curr.y) = (2 / 3 : ℚ) := by
      rw [hp, hc]; norm_num
    have := key h2 h3
    rw [ht] at this
    exact this

/-- Witness for C7 at the concrete crossing prev = (0,2,0), curr = (3,-1,3):
    the hit point is 2/3 of the way, namely (2,0,2). -/
theorem check_ground_hit_correct_witness :
    check_ground_hit ⟨0, 2, 0⟩ ⟨3, -1, 3⟩ =
      some ((⟨0, 2, 0⟩ : Vec3) + (2 / 3 : ℚ) • ((⟨3, -1, 3⟩ : Vec3) - ⟨0, 2, 0⟩)) ∧
    check_ground_hit ⟨0, 2, 0⟩ ⟨3, -1, 3⟩ = some ⟨2, 0, 2⟩ := by
  have h := (check_ground_hit_correct ⟨0, 2, 0⟩ ⟨3, -1, 3⟩).2.2 rfl rfl
  refine ⟨h.1, ?_⟩
  rw [h.1]
  have hv : (⟨0, 2, 0⟩ : Vec3) + (2 / 3 : ℚ) • ((⟨3, -1, 3⟩ : Vec3) - ⟨0, 2, 0⟩) =
      (⟨2, 0, 2⟩ : Vec3) := by
    ext <;> norm_num
  rw [hv]
